import Mathlib

/-!
# Verification of the flight-delay prediction service (server/app.py)

Shallow embedding of the request-handling core of `server/app.py`:
the `/prediction` handler (JSON validation, feature construction, classifier
interpretation) and the `/airports` listing.  JSON numbers are modelled as
exact rationals (the spec's arithmetic facts are exact identities), Python's
`int(...)` coercion is modelled faithfully (truncation of floats toward zero,
booleans as 0/1, integer-literal strings with optional sign, surrounding
whitespace and underscore digit grouping), and an uncaught Python exception
in the handler is modelled as a distinguished `serverError` outcome.
-/

/-- JSON values as delivered to the handler by the HTTP layer.  The JSON
parser yields a Python `int` for an integer literal and a `float` for a
number with a fraction or exponent; we keep the two constructors separate
and model floats as exact rationals. -/
inductive Json where
  | null
  | bool (b : Bool)
  | int (n : Int)
  | float (q : ℚ)
  | str (s : String)
  | arr (elems : List Json)
  | obj (fields : List (String × Json))

/-- Digit run of a Python integer literal: nonempty, decimal digits, with
single underscores allowed only strictly between digits. -/
def intLitCore : List Char → Bool
  | [] => false
  | c :: rest => c.isDigit && intLitTail rest
where intLitTail : List Char → Bool
  | [] => true
  | '_' :: c :: rest => c.isDigit && intLitTail rest
  | ['_'] => false
  | c :: rest => c.isDigit && intLitTail rest

/-- Numeric value of a list of decimal digits. -/
def digitsVal (cs : List Char) : Nat :=
  cs.foldl (fun acc c => 10 * acc + (c.toNat - '0'.toNat)) 0

/-- Python `int(s)` for a string `s`: strips surrounding whitespace, accepts
an optional sign followed by a decimal integer literal, and rejects
everything else (`None` models the raised `ValueError`). -/
def pyIntOfStr (s : String) : Option Int :=
  let cs := ((s.toList.dropWhile Char.isWhitespace).reverse.dropWhile
      Char.isWhitespace).reverse
  match cs with
  | '+' :: rest =>
      if intLitCore rest then some (digitsVal (rest.filter Char.isDigit) : Int) else none
  | '-' :: rest =>
      if intLitCore rest then some (-(digitsVal (rest.filter Char.isDigit) : Int)) else none
  | rest =>
      if intLitCore rest then some (digitsVal (rest.filter Char.isDigit) : Int) else none

/-- Truncation toward zero, the behaviour of Python `int(float)`. -/
def ratTrunc (q : ℚ) : Int :=
  if 0 ≤ q then ⌊q⌋ else ⌈q⌉

/-- Python `int(v)` on a JSON-decoded value: `none` models a raised
`TypeError`/`ValueError`.  Integers pass through, booleans coerce to 0/1,
floats truncate toward zero, strings parse as integer literals; `None`,
lists and dicts raise. -/
def pyInt : Json → Option Int
  | .null => none
  | .bool b => some (if b then 1 else 0)
  | .int n => some n
  | .float q => some (ratTrunc q)
  | .str s => pyIntOfStr s
  | .arr _ => none
  | .obj _ => none

/-- Model of `payload.get(key)`: dict lookup.  A JSON object decodes to a Python
dict in which a duplicated key keeps its last binding, so later bindings
shadow earlier ones. -/
def dictGet : List (String × Json) → String → Option Json
  | [], _ => none
  | (k1, v1) :: fs, k =>
      match dictGet fs k with
      | some v => some v
      | none => if k1 = k then some v1 else none

/-- The fixed `DOW_NAME_MAP` table of `app.py`. -/
def DOW_NAME_MAP (d : Int) : Option String :=
  if d = 1 then some "Monday"
  else if d = 2 then some "Tuesday"
  else if d = 3 then some "Wednesday"
  else if d = 4 then some "Thursday"
  else if d = 5 then some "Friday"
  else if d = 6 then some "Saturday"
  else if d = 7 then some "Sunday"
  else none

/-- Model of `int(payload.get("airport_id"))`, with the raised exception as `none`. -/
def airport_id_of (payload : List (String × Json)) : Option Int :=
  match dictGet payload "airport_id" with
  | none => none
  | some v => pyInt v

/-- Model of `int(payload.get("day_of_week"))`, with the raised exception as `none`. -/
def day_of_week_of (payload : List (String × Json)) : Option Int :=
  match dictGet payload "day_of_week" with
  | none => none
  | some v => pyInt v

/-- Model of `payload.get("carrier", "UNKNOWN")`: raw passthrough with default. -/
def carrier_of (payload : List (String × Json)) : Json :=
  (dictGet payload "carrier").getD (Json.str "UNKNOWN")

/-- Model of `int(payload.get("origin_airport_id", 0))` with the `except` clause
defaulting to 0 on coercion failure. -/
def origin_airport_id_of (payload : List (String × Json)) : Int :=
  match dictGet payload "origin_airport_id" with
  | none => 0
  | some v => (pyInt v).getD 0

/-- The `errors` dict built by the handler, as an association list in
insertion order. -/
def validation_errors (payload : List (String × Json)) : List (String × String) :=
  (match airport_id_of payload with
   | none => [("airport_id", "airport_id is required")]
   | some _ => []) ++
  (match day_of_week_of payload with
   | none => [("day_of_week", "day_of_week is required")]
   | some d =>
     match DOW_NAME_MAP d with
     | some _ => []
     | none => [("day_of_week", "day_of_week must be an integer between 1 and 7")])

/-- The single feature row handed to the model (`pd.DataFrame([{...}])`). -/
structure FeatureRecord where
  Carrier : Json
  OriginAirportID : Int
  DestAirportID : Int
  DayOfWeekName : String

/-- The feature record the handler constructs, when validation passes. -/
def features_of (payload : List (String × Json)) : Option FeatureRecord :=
  if validation_errors payload ≠ [] then none
  else
    match airport_id_of payload, day_of_week_of payload with
    | some airport_id, some day_of_week =>
        (DOW_NAME_MAP day_of_week).map (fun name =>
          ⟨carrier_of payload, origin_airport_id_of payload, airport_id, name⟩)
    | _, _ => none

/-- The classifier collaborator: an ordered class-label list and a
probability row per feature record (`predict_proba(features)[0]`). -/
structure Classifier where
  classes_ : List Int
  predict_proba : FeatureRecord → List ℚ

/-- Model of `classes.index(1)` with the `except ValueError` fallback. -/
def delayed_index (classes : List Int) (probaLen : Nat) : Nat :=
  match classes.findIdx? (fun c => c == 1) with
  | some i => i
  | none => if probaLen > 1 then 1 else 0

/-- Outcome of a `/prediction` request: a 400 with the errors dict, a 200
with the result fields, or an uncaught exception in the handler. -/
inductive PredResponse where
  | badRequest (errors : List (String × String))
  | ok (input_airport_id : Int) (input_day_of_week : Int) (input_carrier : Json)
      (input_origin_airport_id : Int) (prediction : String)
      (delay_probability : ℚ) (delay_probability_percent : ℚ)
      (model_confidence_percent : ℚ)
  | serverError

/-- The body of the `prediction` view from the decoded payload dict on:
validation, feature construction, classifier call and interpretation
(lines 210-279 of `app.py`). -/
def prediction (model : Classifier) (payload : List (String × Json)) : PredResponse :=
  let errors := validation_errors payload
  if errors ≠ [] then .badRequest errors
  else
    match airport_id_of payload, day_of_week_of payload with
    | some airport_id, some day_of_week =>
        match DOW_NAME_MAP day_of_week with
        | some dowName =>
            let carrier := carrier_of payload
            let origin_airport_id := origin_airport_id_of payload
            let features : FeatureRecord := ⟨carrier, origin_airport_id, airport_id, dowName⟩
            let proba := model.predict_proba features
            let idx := delayed_index model.classes_ proba.length
            match proba[idx]? with
            | some p =>
                let confidence := max p (1 - p)
                .ok airport_id day_of_week carrier origin_airport_id
                  (if p ≥ 1/2 then "delayed" else "on_time")
                  p (p * 100) (confidence * 100)
            | none => .serverError
        | none => .serverError
    | _, _ => .serverError

/-- Python truthiness of a decoded JSON value (for `payload or {}`). -/
def jsonTruthy : Json → Bool
  | .null => false
  | .bool b => b
  | .int n => n != 0
  | .float q => q != 0
  | .str s => !(s == "")
  | .arr es => !es.isEmpty
  | .obj fs => !fs.isEmpty

/-- The full `/prediction` route: `request.get_json(silent=True) or {}`
(`none` models an absent or unparseable body), then the handler body.
Calling `.get` on a truthy non-dict payload raises `AttributeError`,
modelled as `serverError`. -/
def prediction_route (model : Classifier) (body : Option Json) : PredResponse :=
  let payload :=
    match body with
    | none => Json.obj []
    | some j => if jsonTruthy j then j else Json.obj []
  match payload with
  | .obj fields => prediction model fields
  | _ => .serverError

/-- A row of the airports directory. -/
structure Airport where
  airport_id : Int
  airport_name : String
deriving DecidableEq, Repr

/-- The `/airports` view: sort by `airport_name`, echo all records and
their count. -/
def airports (df : List Airport) : List Airport × Nat :=
  let records := df.mergeSort (fun a b => a.airport_name ≤ b.airport_name)
  (records, records.length)

/-! ## Supporting lemmas -/

theorem DOW_NAME_MAP_eq_none_iff (d : Int) :
    DOW_NAME_MAP d = none ↔ d < 1 ∨ 7 < d := by
  unfold DOW_NAME_MAP
  split_ifs <;> simp_all <;> omega

theorem DOW_NAME_MAP_isSome_iff (d : Int) :
    (∃ s, DOW_NAME_MAP d = some s) ↔ 1 ≤ d ∧ d ≤ 7 := by
  unfold DOW_NAME_MAP
  split_ifs <;> simp_all <;> omega

theorem validation_errors_eq_ite (payload : List (String × Json)) :
    validation_errors payload =
      (if airport_id_of payload = none
       then [("airport_id", "airport_id is required")] else []) ++
      (match day_of_week_of payload with
       | none => [("day_of_week", "day_of_week is required")]
       | some d =>
         if DOW_NAME_MAP d = none
         then [("day_of_week", "day_of_week must be an integer between 1 and 7")]
         else []) := by
  unfold validation_errors
  rcases airport_id_of payload with _ | a <;>
    rcases day_of_week_of payload with _ | d <;> simp
  · rcases DOW_NAME_MAP d with _ | s <;> simp
  · rcases DOW_NAME_MAP d with _ | s <;> simp

theorem mem_validation_errors (payload : List (String × Json)) (e : String × String)
    (he : e ∈ validation_errors payload) :
    (e = ("airport_id", "airport_id is required") ∧ airport_id_of payload = none) ∨
    (e = ("day_of_week", "day_of_week is required") ∧ day_of_week_of payload = none) ∨
    (∃ d, e = ("day_of_week", "day_of_week must be an integer between 1 and 7") ∧
      day_of_week_of payload = some d ∧ DOW_NAME_MAP d = none) := by
  rw [validation_errors_eq_ite, List.mem_append] at he
  rcases he with he | he
  · rcases hA : airport_id_of payload with _ | a <;> rw [hA] at he <;> simp at he
    exact Or.inl ⟨by simp [he], rfl⟩
  · rcases hD : day_of_week_of payload with _ | d <;> rw [hD] at he
    · simp at he
      exact Or.inr (Or.inl ⟨by simp [he], rfl⟩)
    · have he2 : e ∈ (if DOW_NAME_MAP d = none
          then [("day_of_week", "day_of_week must be an integer between 1 and 7")]
          else []) := he
      rcases hN : DOW_NAME_MAP d with _ | s <;> rw [hN] at he2 <;> simp at he2
      exact Or.inr (Or.inr ⟨d, by simp [he2], rfl, hN⟩)

theorem validation_errors_nil_of (payload : List (String × Json)) (a d : Int) (s : String)
    (ha : airport_id_of payload = some a)
    (hd : day_of_week_of payload = some d)
    (hn : DOW_NAME_MAP d = some s) :
    validation_errors payload = [] := by
  rw [validation_errors_eq_ite, ha, hd]
  simp [hn]

theorem airport_id_error_mem (payload : List (String × Json))
    (h : airport_id_of payload = none) :
    ("airport_id", "airport_id is required") ∈ validation_errors payload := by
  rw [validation_errors_eq_ite, h]
  simp

theorem dow_required_mem (payload : List (String × Json))
    (h : day_of_week_of payload = none) :
    ("day_of_week", "day_of_week is required") ∈ validation_errors payload := by
  rw [validation_errors_eq_ite, h]
  rcases airport_id_of payload with _ | a <;> simp

theorem dow_range_mem (payload : List (String × Json)) (d : Int)
    (hd : day_of_week_of payload = some d) (hn : DOW_NAME_MAP d = none) :
    ("day_of_week", "day_of_week must be an integer between 1 and 7") ∈
      validation_errors payload := by
  rw [validation_errors_eq_ite, hd]
  rcases airport_id_of payload with _ | a <;> simp [hn]

/-- A concrete classifier used to instantiate universally quantified theorems:
two classes labelled 0 and 1, always answering the distribution (0.7, 0.3). -/
def exClassifier : Classifier := ⟨[0, 1], fun _ => [7/10, 3/10]⟩

/-! ## Claims -/

/-- C9: for every airport directory, the airports listing returns all
airports with no filtering, sorted ascending by airport name, and the
reported count equals the length of the returned sequence. -/
theorem airports_sorted_complete_count (df : List Airport) :
    (airports df).1.Perm df ∧
    List.Sorted (fun a b : Airport => a.airport_name ≤ b.airport_name) (airports df).1 ∧
    (airports df).2 = (airports df).1.length := by
  refine ⟨List.mergeSort_perm df _, ?_, rfl⟩
  have htrans : ∀ a b c : Airport, (decide (a.airport_name ≤ b.airport_name)) = true →
      (decide (b.airport_name ≤ c.airport_name)) = true →
      (decide (a.airport_name ≤ c.airport_name)) = true := by
    intro a b c hab hbc
    rw [decide_eq_true_iff] at *
    exact le_trans hab hbc
  have htot : ∀ a b : Airport, (decide (a.airport_name ≤ b.airport_name) ||
      decide (b.airport_name ≤ a.airport_name)) = true := by
    intro a b
    rcases le_total a.airport_name b.airport_name with h | h <;> simp [h]
  have h := List.sorted_mergeSort htrans htot df
  exact h.imp (fun hab => decide_eq_true_iff.mp hab)

/-- Witness for C9 at a concrete three-row directory. -/
theorem airports_sorted_complete_count_witness :
    (airports [⟨3, "c"⟩, ⟨1, "a"⟩, ⟨2, "b"⟩]).2 =
      (airports [⟨3, "c"⟩, ⟨1, "a"⟩, ⟨2, "b"⟩]).1.length :=
  (airports_sorted_complete_count [⟨3, "c"⟩, ⟨1, "a"⟩, ⟨2, "b"⟩]).2.2

/-- C7: a request with a non-empty validation error set yields exactly the
400 response carrying that error mapping, constructs no feature record,
never invokes the classifier (the response is independent of it), and never
escapes as an uncaught exception. -/
theorem nonempty_errors_yield_bad_request (model : Classifier)
    (payload : List (String × Json)) (h : validation_errors payload ≠ []) :
    prediction model payload = .badRequest (validation_errors payload) ∧
    features_of payload = none ∧
    ∀ other : Classifier, prediction other payload = prediction model payload := by
  refine ⟨?_, ?_, fun other => ?_⟩
  · unfold prediction
    rw [if_pos h]
  · unfold features_of
    rw [if_pos h]
  · unfold prediction
    rw [if_pos h, if_pos h]

/-- Witness for C7 at the empty payload. -/
theorem nonempty_errors_yield_bad_request_witness :
    prediction exClassifier [] =
      .badRequest [("airport_id", "airport_id is required"),
        ("day_of_week", "day_of_week is required")] := by
  have h := nonempty_errors_yield_bad_request exClassifier []
    (by intro hc; exact List.noConfusion hc)
  exact h.1.trans rfl

/-- C6: origin_airport_id never contributes a validation error: an omitted
field defaults to 0 and a non-coercible value silently defaults to 0,
asymmetrically with the strict validation of airport_id. -/
theorem origin_airport_id_never_errors (payload : List (String × Json)) :
    (∀ m, ("origin_airport_id", m) ∉ validation_errors payload) ∧
    (dictGet payload "origin_airport_id" = none → origin_airport_id_of payload = 0) ∧
    (∀ v, dictGet payload "origin_airport_id" = some v → pyInt v = none →
      origin_airport_id_of payload = 0) := by
  refine ⟨fun m hm => ?_, fun h => ?_, fun v hv hnone => ?_⟩
  · rcases mem_validation_errors payload _ hm with ⟨h, _⟩ | ⟨h, _⟩ | ⟨d, h, _, _⟩ <;>
      simp at h
  · unfold origin_airport_id_of
    rw [h]
  · unfold origin_airport_id_of
    rw [hv]
    show (pyInt v).getD 0 = 0
    rw [hnone]
    rfl

/-- Witness for C6: a non-numeric origin_airport_id string defaults to 0. -/
theorem origin_airport_id_never_errors_witness :
    origin_airport_id_of [("origin_airport_id", Json.str "zz")] = 0 :=
  (origin_airport_id_never_errors [("origin_airport_id", Json.str "zz")]).2.2
    (Json.str "zz") (by simp [dictGet]) rfl

theorem validation_errors_nil_elim (payload : List (String × Json))
    (h : validation_errors payload = []) :
    ∃ a d s, airport_id_of payload = some a ∧ day_of_week_of payload = some d ∧
      DOW_NAME_MAP d = some s := by
  rcases hA : airport_id_of payload with _ | a
  · exact absurd (airport_id_error_mem payload hA) (by rw [h]; simp)
  rcases hD : day_of_week_of payload with _ | d
  · exact absurd (dow_required_mem payload hD) (by rw [h]; simp)
  rcases hN : DOW_NAME_MAP d with _ | s
  · exact absurd (dow_range_mem payload d hD hN) (by rw [h]; simp)
  exact ⟨a, d, s, rfl, rfl, hN⟩

theorem features_of_eq (payload : List (String × Json)) (a d : Int) (s : String)
    (ha : airport_id_of payload = some a)
    (hd : day_of_week_of payload = some d)
    (hn : DOW_NAME_MAP d = some s) :
    features_of payload =
      some ⟨carrier_of payload, origin_airport_id_of payload, a, s⟩ := by
  unfold features_of
  rw [if_neg (by simp [validation_errors_nil_of payload a d s ha hd hn])]
  simp only [ha, hd, hn, Option.map_some']

theorem features_of_elim (payload : List (String × Json)) (fr : FeatureRecord)
    (hfr : features_of payload = some fr) :
    ∃ a d, airport_id_of payload = some a ∧ day_of_week_of payload = some d ∧
      DOW_NAME_MAP d = some fr.DayOfWeekName ∧
      fr = ⟨carrier_of payload, origin_airport_id_of payload, a, fr.DayOfWeekName⟩ := by
  by_cases hE : validation_errors payload ≠ []
  · unfold features_of at hfr
    rw [if_pos hE] at hfr
    exact absurd hfr (by simp)
  · obtain ⟨a, d, s, ha, hd, hn⟩ := validation_errors_nil_elim payload (not_not.mp hE)
    have heq := features_of_eq payload a d s ha hd hn
    rw [hfr] at heq
    have hfr2 : fr = ⟨carrier_of payload, origin_airport_id_of payload, a, s⟩ :=
      Option.some.inj heq
    refine ⟨a, d, ha, hd, ?_, ?_⟩
    · rw [hfr2]
      exact hn
    · rw [hfr2]

theorem prediction_of_valid (model : Classifier) (payload : List (String × Json))
    (a d : Int) (s : String)
    (ha : airport_id_of payload = some a)
    (hd : day_of_week_of payload = some d)
    (hn : DOW_NAME_MAP d = some s) :
    prediction model payload =
      (match (model.predict_proba ⟨carrier_of payload, origin_airport_id_of payload, a, s⟩)[
          delayed_index model.classes_
            (model.predict_proba
              ⟨carrier_of payload, origin_airport_id_of payload, a, s⟩).length]? with
       | some p =>
           PredResponse.ok a d (carrier_of payload) (origin_airport_id_of payload)
             (if p ≥ 1/2 then "delayed" else "on_time") p (p * 100) (max p (1 - p) * 100)
       | none => PredResponse.serverError) := by
  unfold prediction
  rw [if_neg (by simp [validation_errors_nil_of payload a d s ha hd hn])]
  simp only [ha, hd, hn]

/-- The weekday names in ordinal order, as the spec states them. -/
def weekdayNames : List String :=
  ["Monday", "Tuesday", "Wednesday", "Thursday", "Friday", "Saturday", "Sunday"]

/-- The spec's fixed ordinal mapping: 1=Monday, ..., 7=Sunday. -/
def ordinalDowName (d : Int) : Option String := weekdayNames[(d - 1).toNat]?

theorem DOW_NAME_MAP_eq_ordinal (d : Int) (h1 : 1 ≤ d) (h7 : d ≤ 7) :
    DOW_NAME_MAP d = ordinalDowName d := by
  interval_cases d <;> rfl

/-- C4: every integer day_of_week in [1,7] passes validation and the
constructed feature record carries the weekday name given by the fixed
ordinal mapping 1=Monday ... 7=Sunday. -/
theorem day_of_week_valid_range_mapping (payload : List (String × Json)) (d : Int)
    (h1 : 1 ≤ d) (h7 : d ≤ 7)
    (hd : dictGet payload "day_of_week" = some (Json.int d)) :
    (∀ m, ("day_of_week", m) ∉ validation_errors payload) ∧
    (∀ fr, features_of payload = some fr → ordinalDowName d = some fr.DayOfWeekName) := by
  have hD : day_of_week_of payload = some d := by
    unfold day_of_week_of
    rw [hd]
    rfl
  obtain ⟨s, hs⟩ := (DOW_NAME_MAP_isSome_iff d).mpr ⟨h1, h7⟩
  constructor
  · intro m hm
    rcases mem_validation_errors payload _ hm with ⟨he, _⟩ | ⟨_, hD2⟩ | ⟨d2, _, hD2, hN2⟩
    · simp at he
    · rw [hD] at hD2
      exact Option.noConfusion hD2
    · rw [hD] at hD2
      obtain rfl : d = d2 := by injection hD2
      rw [hs] at hN2
      exact Option.noConfusion hN2
  · intro fr hfr
    obtain ⟨a, d2, ha2, hd2, hn2, hfr2⟩ := features_of_elim payload fr hfr
    rw [hD] at hd2
    obtain rfl : d = d2 := by injection hd2
    rw [← DOW_NAME_MAP_eq_ordinal d h1 h7]
    exact hn2

/-- Witness for C4 with day_of_week = 3 mapping to Wednesday. -/
theorem day_of_week_valid_range_mapping_witness :
    ("day_of_week", "day_of_week is required") ∉
      validation_errors [("airport_id", Json.int 1), ("day_of_week", Json.int 3)] ∧
    ordinalDowName 3 =
      some (FeatureRecord.DayOfWeekName ⟨Json.str "UNKNOWN", 0, 1, "Wednesday"⟩) := by
  have h := day_of_week_valid_range_mapping
      [("airport_id", Json.int 1), ("day_of_week", Json.int 3)] 3
      (by norm_num) (by norm_num) (by simp [dictGet])
  refine ⟨h.1 _, h.2 ⟨Json.str "UNKNOWN", 0, 1, "Wednesday"⟩ ?_⟩
  have := features_of_eq [("airport_id", Json.int 1), ("day_of_week", Json.int 3)] 1 3
      "Wednesday" (by simp [airport_id_of, dictGet, pyInt]) (by simp [day_of_week_of, dictGet, pyInt])
      (by simp [DOW_NAME_MAP])
  rw [this]
  simp [carrier_of, origin_airport_id_of, dictGet]

theorem dow_errs_eq (payload : List (String × Json)) :
    (validation_errors payload).filter (fun e => e.1 = "day_of_week") =
      (match day_of_week_of payload with
       | none => [("day_of_week", "day_of_week is required")]
       | some d =>
         if DOW_NAME_MAP d = none
         then [("day_of_week", "day_of_week must be an integer between 1 and 7")]
         else []) := by
  rw [validation_errors_eq_ite, List.filter_append]
  rcases airport_id_of payload with _ | a <;>
    rcases day_of_week_of payload with _ | d <;> simp
  all_goals split_ifs <;> simp

/-- C5: the day_of_week field yields exactly one of two mutually exclusive
errors: a missing or non-coercible value yields the "required" message and a
parsed integer outside [1,7] the "must be between 1 and 7" message; no input
produces both, and in either case no feature record is constructed. -/
theorem day_of_week_error_dichotomy (payload : List (String × Json)) :
    ((validation_errors payload).filter (fun e => e.1 = "day_of_week")).length ≤ 1 ∧
    (day_of_week_of payload = none →
      (validation_errors payload).filter (fun e => e.1 = "day_of_week") =
        [("day_of_week", "day_of_week is required")]) ∧
    (∀ d, day_of_week_of payload = some d → (d < 1 ∨ 7 < d) →
      (validation_errors payload).filter (fun e => e.1 = "day_of_week") =
        [("day_of_week", "day_of_week must be an integer between 1 and 7")]) ∧
    ((∃ e ∈ validation_errors payload, e.1 = "day_of_week") →
      features_of payload = none) := by
  have hfeat : ∀ e ∈ validation_errors payload, features_of payload = none := by
    intro e he
    unfold features_of
    rw [if_pos (List.ne_nil_of_mem he)]
  have hde := dow_errs_eq payload
  rcases hD : day_of_week_of payload with _ | d <;> rw [hD] at hde
  · have hde2 : (validation_errors payload).filter (fun e => e.1 = "day_of_week") =
        [("day_of_week", "day_of_week is required")] := hde
    refine ⟨by rw [hde2]; simp, fun _ => hde2,
      fun d hd2 => absurd hd2 (by simp), fun _ => ?_⟩
    exact hfeat _ (dow_required_mem payload hD)
  · have hde2 : (validation_errors payload).filter (fun e => e.1 = "day_of_week") =
        (if DOW_NAME_MAP d = none
         then [("day_of_week", "day_of_week must be an integer between 1 and 7")]
         else []) := hde
    rcases hN : DOW_NAME_MAP d with _ | s <;> rw [hN] at hde2
    · rw [if_pos rfl] at hde2
      refine ⟨by rw [hde2]; simp, fun hc => absurd hc (by simp),
        fun d2 hd2 hrange => hde2, fun _ => ?_⟩
      exact hfeat _ (dow_range_mem payload d hD hN)
    · rw [if_neg (by simp)] at hde2
      refine ⟨by rw [hde2]; simp, fun hc => absurd hc (by simp),
        fun d2 hd2 hrange => ?_, ?_⟩
      · obtain rfl : d = d2 := by injection hd2
        rw [(DOW_NAME_MAP_eq_none_iff d).mpr hrange] at hN
        exact Option.noConfusion hN
      · rintro ⟨e, he, hkey⟩
        have hmem : e ∈ (validation_errors payload).filter
            (fun x => x.1 = "day_of_week") := List.mem_filter.mpr ⟨he, by simp [hkey]⟩
        rw [hde2] at hmem
        simp at hmem

/-- Witness for C5: day_of_week = 9 yields exactly the range error. -/
theorem day_of_week_error_dichotomy_witness :
    (validation_errors [("day_of_week", Json.int 9)]).filter
        (fun e => e.1 = "day_of_week") =
      [("day_of_week", "day_of_week must be an integer between 1 and 7")] :=
  (day_of_week_error_dichotomy [("day_of_week", Json.int 9)]).2.2.1 9
    (by simp [day_of_week_of, dictGet, pyInt]) (by norm_num)

/-- C8: both required fields are validated independently, so their errors
surface together: the empty JSON object yields exactly the two
required-field errors, and the field names present in any error response are
exactly those that failed. -/
theorem errors_surface_together (model : Classifier) :
    prediction_route model (some (Json.obj [])) =
      .badRequest [("airport_id", "airport_id is required"),
        ("day_of_week", "day_of_week is required")] ∧
    ∀ payload : List (String × Json),
      ((∃ m, ("airport_id", m) ∈ validation_errors payload) ↔
        airport_id_of payload = none) ∧
      ((∃ m, ("day_of_week", m) ∈ validation_errors payload) ↔
        (day_of_week_of payload = none ∨
          ∃ d, day_of_week_of payload = some d ∧ DOW_NAME_MAP d = none)) := by
  refine ⟨rfl, fun payload => ⟨⟨?_, ?_⟩, ⟨?_, ?_⟩⟩⟩
  · rintro ⟨m, hm⟩
    rcases mem_validation_errors payload _ hm with ⟨he, hA⟩ | ⟨he, _⟩ | ⟨d2, he, _, _⟩
    · exact hA
    · simp at he
    · simp at he
  · intro hA
    exact ⟨_, airport_id_error_mem payload hA⟩
  · rintro ⟨m, hm⟩
    rcases mem_validation_errors payload _ hm with ⟨he, _⟩ | ⟨he, hD⟩ | ⟨d2, he, hD, hN⟩
    · simp at he
    · exact Or.inl hD
    · exact Or.inr ⟨d2, hD, hN⟩
  · rintro (hD | ⟨d, hD, hN⟩)
    · exact ⟨_, dow_required_mem payload hD⟩
    · exact ⟨_, dow_range_mem payload d hD hN⟩

/-- Witness for C8: the empty object produces both errors, and a payload
missing airport_id is reported as an airport_id failure. -/
theorem errors_surface_together_witness :
    prediction_route exClassifier (some (Json.obj [])) =
      .badRequest [("airport_id", "airport_id is required"),
        ("day_of_week", "day_of_week is required")] ∧
    airport_id_of [("day_of_week", Json.str "abc")] = none := by
  refine ⟨(errors_surface_together exClassifier).1, ?_⟩
  exact ((errors_surface_together exClassifier).2 [("day_of_week", Json.str "abc")]).1.mp
    ⟨"airport_id is required", airport_id_error_mem _ (by simp [airport_id_of, dictGet])⟩

/-- C1: whenever the handler answers 200 and the classifier's delay
probability lies in [0,1], the label is "delayed" iff the probability is at
least 1/2 (ties to delayed), the confidence percent is max(p,1-p)*100 and
lies in [50,100], the probability is echoed unrounded, and its percent field
is exactly p*100. -/
theorem prediction_response_interpretation (model : Classifier)
    (payload : List (String × Json)) (a d : Int) (c : Json) (o : Int)
    (lbl : String) (dp dpp mcp : ℚ)
    (hok : prediction model payload = .ok a d c o lbl dp dpp mcp)
    (h0 : 0 ≤ dp) (h1 : dp ≤ 1) :
    (lbl = "delayed" ↔ 1/2 ≤ dp) ∧
    (lbl = "on_time" ↔ dp < 1/2) ∧
    mcp = max dp (1 - dp) * 100 ∧
    dpp = dp * 100 ∧
    50 ≤ mcp ∧ mcp ≤ 100 ∧
    ∃ fr, features_of payload = some fr ∧
      (model.predict_proba fr)[delayed_index model.classes_
        (model.predict_proba fr).length]? = some dp := by
  by_cases hE : validation_errors payload ≠ []
  · unfold prediction at hok
    rw [if_pos hE] at hok
    exact PredResponse.noConfusion hok
  · obtain ⟨a2, d2, s, ha, hd, hn⟩ := validation_errors_nil_elim payload (not_not.mp hE)
    rw [prediction_of_valid model payload a2 d2 s ha hd hn] at hok
    rcases hP : (model.predict_proba
        ⟨carrier_of payload, origin_airport_id_of payload, a2, s⟩)[delayed_index
          model.classes_ (model.predict_proba
            ⟨carrier_of payload, origin_airport_id_of payload, a2, s⟩).length]?
        with _ | p
    · rw [hP] at hok
      exact PredResponse.noConfusion hok
    · rw [hP] at hok
      injection hok with h_a h_d h_c h_o h_lbl h_dp h_dpp h_mcp
    -- substitute the response fields
      subst h_a h_d h_c h_o
      rw [← h_dp] at h0 h1 ⊢
      refine ⟨?_, ?_, h_mcp.symm.trans (by rw [h_dp]), h_dpp.symm.trans (by rw [h_dp]),
        ?_, ?_, ?_⟩
      · rw [← h_lbl]
        rcases le_or_lt (1/2 : ℚ) p with hle | hlt
        · rw [if_pos (by exact hle)]
          exact ⟨fun _ => hle, fun _ => rfl⟩
        · rw [if_neg (by exact fun hc => absurd hc (not_le.mpr hlt))]
          exact ⟨fun hc => absurd hc (by simp), fun hc => absurd hc (by linarith)⟩
      · rw [← h_lbl]
        rcases le_or_lt (1/2 : ℚ) p with hle | hlt
        · rw [if_pos (by exact hle)]
          exact ⟨fun hc => absurd hc (by simp), fun hc => absurd hc (by linarith)⟩
        · rw [if_neg (by exact fun hc => absurd hc (not_le.mpr hlt))]
          exact ⟨fun _ => hlt, fun _ => rfl⟩
      · rw [← h_mcp]
        have hmax : 1/2 ≤ max p (1 - p) := by
          rcases le_total p (1/2) with hc | hc
          · exact le_trans (by linarith) (le_max_right _ _)
          · exact le_trans hc (le_max_left _ _)
        linarith
      · rw [← h_mcp]
        have hmax : max p (1 - p) ≤ 1 := max_le h1 (by linarith)
        linarith
      · refine ⟨⟨carrier_of payload, origin_airport_id_of payload, a2, s⟩,
          features_of_eq payload a2 d2 s ha hd hn, ?_⟩
        rw [hP, h_dp]

/-- Witness for C1 at a concrete request and classifier (p = 0.3). -/
theorem prediction_response_interpretation_witness :
    ((("on_time" : String) = "delayed") ↔ (1:ℚ)/2 ≤ 3/10) ∧
    (50:ℚ) ≤ 70 ∧ (70:ℚ) = max (3/10) (1 - 3/10) * 100 := by
  have h := prediction_response_interpretation exClassifier
      [("airport_id", Json.int 12892), ("day_of_week", Json.int 1),
       ("carrier", Json.str "DL"), ("origin_airport_id", Json.int 15304)]
      12892 1 (Json.str "DL") 15304 "on_time" (3/10) 30 70
      (by simp [prediction, validation_errors, airport_id_of, day_of_week_of, dictGet,
            pyInt, DOW_NAME_MAP, carrier_of, origin_airport_id_of, delayed_index,
            exClassifier]
          norm_num)
      (by norm_num) (by norm_num)
  exact ⟨h.1, h.2.2.2.2.1, h.2.2.1⟩

/-- A concrete request payload used to instantiate theorems. -/
def exPayload : List (String × Json) :=
  [("airport_id", Json.int 12892), ("day_of_week", Json.int 1),
   ("carrier", Json.str "DL"), ("origin_airport_id", Json.int 15304)]

/-- The feature record the handler builds for `exPayload`. -/
def exFeatures : FeatureRecord := ⟨Json.str "DL", 15304, 12892, "Monday"⟩

/-- C2: the delay probability is read from the probability column of the
class labelled exactly 1 (the first such label); when no class is labelled
1 the fallback takes the entry at the second position when the distribution
has more than one entry and the single entry otherwise, and under the
classifier contract (labels aligned with a nonempty probability row) this
never hard-fails the request. -/
theorem delayed_class_column_selection (model : Classifier)
    (payload : List (String × Json)) (fr : FeatureRecord)
    (hfr : features_of payload = some fr)
    (hlen : model.classes_.length = (model.predict_proba fr).length)
    (hne : model.predict_proba fr ≠ []) :
    ∃ a d lbl dpp mcp p,
      prediction model payload =
        PredResponse.ok a d (carrier_of payload) (origin_airport_id_of payload)
          lbl p dpp mcp ∧
      (∀ i : Nat, model.classes_[i]? = some 1 →
        (∀ j : Nat, j < i → model.classes_[j]? ≠ some 1) →
        (model.predict_proba fr)[i]? = some p) ∧
      ((1:Int) ∉ model.classes_ →
        (1 < (model.predict_proba fr).length →
          (model.predict_proba fr)[1]? = some p) ∧
        ((model.predict_proba fr).length = 1 →
          (model.predict_proba fr)[0]? = some p)) := by
  obtain ⟨a, d, ha, hd, hn, hfr2⟩ := features_of_elim payload fr hfr
  have hpred := prediction_of_valid model payload a d fr.DayOfWeekName ha hd hn
  rw [← hfr2] at hpred
  have hlt : delayed_index model.classes_ (model.predict_proba fr).length <
      (model.predict_proba fr).length := by
    unfold delayed_index
    rcases hf : model.classes_.findIdx? (fun c => c == 1) with _ | i
    · show (if (model.predict_proba fr).length > 1 then 1 else 0) <
        (model.predict_proba fr).length
      have hpos : 0 < (model.predict_proba fr).length := List.length_pos.mpr hne
      by_cases hgt : (model.predict_proba fr).length > 1
      · rw [if_pos hgt]
        exact hgt
      · rw [if_neg hgt]
        omega
    · show i < (model.predict_proba fr).length
      obtain ⟨hilt, -, -⟩ := List.findIdx?_eq_some_iff_getElem.mp hf
      omega
  obtain ⟨p, hPp⟩ : ∃ p, (model.predict_proba fr)[delayed_index model.classes_
      (model.predict_proba fr).length]? = some p := ⟨_, List.getElem?_eq_getElem hlt⟩
  refine ⟨a, d, (if p ≥ 1/2 then "delayed" else "on_time"), p * 100,
    max p (1 - p) * 100, p, ?_, ?_, ?_⟩
  · rw [hpred, hPp]
  · intro i hi hmin
    obtain ⟨hilt, hival⟩ := List.getElem?_eq_some.mp hi
    have hfi : model.classes_.findIdx? (fun c => c == 1) = some i := by
      rw [List.findIdx?_eq_some_iff_getElem]
      refine ⟨hilt, by simp [hival], fun j hj => ?_⟩
      have hjlt : j < model.classes_.length := lt_trans hj hilt
      have hj2 := hmin j hj
      rw [List.getElem?_eq_getElem hjlt] at hj2
      have hj3 : ¬ model.classes_[j] = 1 := fun hc => hj2 (by rw [hc])
      exact fun hc => hj3 (by exact_mod_cast beq_iff_eq.mp hc)
    have hidx_eq : delayed_index model.classes_ (model.predict_proba fr).length = i := by
      unfold delayed_index
      rw [hfi]
    rw [← hidx_eq]
    exact hPp
  · intro hnot
    have hf : model.classes_.findIdx? (fun c => c == 1) = none := by
      rw [List.findIdx?_eq_none_iff]
      intro x hx
      rw [beq_eq_false_iff_ne]
      exact fun hx1 => hnot (hx1 ▸ hx)
    constructor
    · intro hlen1
      have hidx_eq : delayed_index model.classes_ (model.predict_proba fr).length = 1 := by
        unfold delayed_index
        rw [hf]
        show (if (model.predict_proba fr).length > 1 then 1 else 0) = 1
        rw [if_pos hlen1]
      rw [← hidx_eq]
      exact hPp
    · intro hlen1
      have hidx_eq : delayed_index model.classes_ (model.predict_proba fr).length = 0 := by
        unfold delayed_index
        rw [hf]
        show (if (model.predict_proba fr).length > 1 then 1 else 0) = 0
        rw [if_neg (by omega)]
      rw [← hidx_eq]
      exact hPp

/-- Witness for C2 at the concrete request and two-class classifier. -/
theorem delayed_class_column_selection_witness :
    ∃ a d lbl dpp mcp p,
      prediction exClassifier exPayload =
        PredResponse.ok a d (carrier_of exPayload) (origin_airport_id_of exPayload)
          lbl p dpp mcp ∧
      (∀ i : Nat, exClassifier.classes_[i]? = some 1 →
        (∀ j : Nat, j < i → exClassifier.classes_[j]? ≠ some 1) →
        (exClassifier.predict_proba exFeatures)[i]? = some p) ∧
      ((1:Int) ∉ exClassifier.classes_ →
        (1 < (exClassifier.predict_proba exFeatures).length →
          (exClassifier.predict_proba exFeatures)[1]? = some p) ∧
        ((exClassifier.predict_proba exFeatures).length = 1 →
          (exClassifier.predict_proba exFeatures)[0]? = some p)) :=
  delayed_class_column_selection exClassifier exPayload exFeatures
    (by
      have h := features_of_eq exPayload 12892 1 "Monday"
        (by simp [airport_id_of, dictGet, exPayload, pyInt])
        (by simp [day_of_week_of, dictGet, exPayload, pyInt])
        (by simp [DOW_NAME_MAP])
      rw [h]
      simp [carrier_of, origin_airport_id_of, dictGet, exPayload, exFeatures, pyInt])
    (by rfl) (by simp [exClassifier])

/-- C3 counterexample: airport_id given as the non-integer-valued JSON
number 3.7 is accepted by validation (Python int() truncates it to 3)
instead of producing the "airport_id is required" error the claim demands. -/
theorem airport_id_float_accepted :
    validation_errors [("airport_id", Json.float (37/10)), ("day_of_week", Json.int 1)]
      = [] ∧
    airport_id_of [("airport_id", Json.float (37/10)), ("day_of_week", Json.int 1)]
      = some 3 := by
  constructor
  · simp [validation_errors, airport_id_of, day_of_week_of, dictGet, pyInt,
      DOW_NAME_MAP, ratTrunc]
  · simp [airport_id_of, dictGet, pyInt]
    norm_num [ratTrunc]

/-- The acceptance predicate of the amended C3, stated from the spec side:
Python int() accepts integers, booleans, any finite number, and strings that
spell an optionally signed decimal integer; it rejects null, other strings,
arrays and objects. -/
def intAcceptable : Json → Prop
  | .null => False
  | .bool _ => True
  | .int _ => True
  | .float _ => True
  | .str s => ∃ n, pyIntOfStr s = some n
  | .arr _ => False
  | .obj _ => False

theorem pyInt_isSome_iff (v : Json) : (∃ n, pyInt v = some n) ↔ intAcceptable v := by
  cases v <;> simp [pyInt, intAcceptable]

/-- C3 amended: airport_id validation accepts exactly the int()-coercible
values — integers, booleans, numbers (non-integral ones truncated toward
zero), and integer-literal strings — and every other value (missing field,
null, other strings, arrays, objects) produces the field error
"airport_id is required" and no other airport_id outcome. -/
theorem airport_id_validation_characterization (payload : List (String × Json)) :
    ((∃ m, ("airport_id", m) ∈ validation_errors payload) ↔
      ¬ ∃ v, dictGet payload "airport_id" = some v ∧ intAcceptable v) ∧
    (∀ m, ("airport_id", m) ∈ validation_errors payload →
      m = "airport_id is required") := by
  have hchar : airport_id_of payload = none ↔
      ¬ ∃ v, dictGet payload "airport_id" = some v ∧ intAcceptable v := by
    unfold airport_id_of
    rcases hG : dictGet payload "airport_id" with _ | v
    · simp
    · rw [show (match (some v : Option Json) with
          | none => none
          | some v => pyInt v) = pyInt v from rfl]
      rcases hpy : pyInt v with _ | n
      · have : ¬ intAcceptable v := by
          rw [← pyInt_isSome_iff]
          rintro ⟨n, hn⟩
          rw [hpy] at hn
          exact Option.noConfusion hn
        simp [this]
      · have : intAcceptable v := (pyInt_isSome_iff v).mp ⟨n, hpy⟩
        simp [this]
  constructor
  · rw [← hchar]
    constructor
    · rintro ⟨m, hm⟩
      rcases mem_validation_errors payload _ hm with ⟨_, hA⟩ | ⟨he, _⟩ | ⟨d2, he, _, _⟩
      · exact hA
      · simp at he
      · simp at he
    · intro hA
      exact ⟨_, airport_id_error_mem payload hA⟩
  · intro m hm
    rcases mem_validation_errors payload _ hm with ⟨he, _⟩ | ⟨he, _⟩ | ⟨d2, he, _, _⟩
    · exact (Prod.ext_iff.mp he).2
    · simp at he
    · simp at he

/-- Witness for the amended C3: a payload without airport_id is rejected
precisely because no acceptable value is present. -/
theorem airport_id_validation_characterization_witness :
    ¬ ∃ v, dictGet [("day_of_week", Json.int 1)] "airport_id" = some v ∧
      intAcceptable v :=
  (airport_id_validation_characterization [("day_of_week", Json.int 1)]).1.mp
    ⟨"airport_id is required",
      airport_id_error_mem _ (by simp [airport_id_of, dictGet])⟩

/-- C10 counterexample: a request body parsing to the truthy non-object JSON
value [1] is not treated as the empty object; the handler raises
(AttributeError on payload.get) instead of returning the two-error 400. -/
theorem truthy_array_body_crashes :
    prediction_route exClassifier (some (Json.arr [Json.int 1])) =
      PredResponse.serverError ∧
    prediction_route exClassifier (some (Json.arr [Json.int 1])) ≠
      PredResponse.badRequest [("airport_id", "airport_id is required"),
        ("day_of_week", "day_of_week is required")] :=
  ⟨rfl, fun h => PredResponse.noConfusion h⟩

/-- C10 amended: a body that is absent, unparseable, or parses to a falsy
JSON value (null, false, 0, empty string, empty array, empty object) is
treated as the empty object and yields the 400 with exactly the two
required-field errors; a body parsing to a truthy non-object value instead
raises an uncaught error. -/
theorem falsy_body_treated_as_empty (model : Classifier) :
    (prediction_route model none =
      .badRequest [("airport_id", "airport_id is required"),
        ("day_of_week", "day_of_week is required")]) ∧
    (∀ j, jsonTruthy j = false → prediction_route model (some j) =
      .badRequest [("airport_id", "airport_id is required"),
        ("day_of_week", "day_of_week is required")]) ∧
    (∀ j, jsonTruthy j = true → (∀ fs, j ≠ Json.obj fs) →
      prediction_route model (some j) = PredResponse.serverError) := by
  refine ⟨rfl, fun j hj => ?_, fun j hj hobj => ?_⟩
  · unfold prediction_route
    show (match (if jsonTruthy j = true then j else Json.obj []) with
      | Json.obj fields => prediction model fields
      | _ => PredResponse.serverError) =
      PredResponse.badRequest [("airport_id", "airport_id is required"),
        ("day_of_week", "day_of_week is required")]
    rw [hj]
    rfl
  · unfold prediction_route
    show (match (if jsonTruthy j = true then j else Json.obj []) with
      | Json.obj fields => prediction model fields
      | _ => PredResponse.serverError) = PredResponse.serverError
    rw [hj]
    cases j
    case obj fs => exact absurd rfl (hobj fs)
    all_goals rfl

/-- Witness for the amended C10: null body yields the two-error 400, a
truthy string body crashes. -/
theorem falsy_body_treated_as_empty_witness :
    prediction_route exClassifier (some Json.null) =
      .badRequest [("airport_id", "airport_id is required"),
        ("day_of_week", "day_of_week is required")] ∧
    prediction_route exClassifier (some (Json.str "x")) = PredResponse.serverError :=
  ⟨(falsy_body_treated_as_empty exClassifier).2.1 Json.null rfl,
   (falsy_body_treated_as_empty exClassifier).2.2 (Json.str "x") rfl
     (fun fs h => Json.noConfusion h)⟩
